import Mathlib

/-!
Shallow embedding of jftuga/gostat (gostat.go), a command-line utility that
displays and sets file timestamps.  Pure functions (FormatWithCommas,
createDate) are translated directly; filesystem-dependent functions
(expandGlobs, getFileTimes, showFileTimes, setFileTime) are translated over an
explicit filesystem model, with os.Chtimes side effects recorded both as state
updates and as a trace of calls.
-/

namespace Gostat

/-- Calendar instant at second resolution.  Go's `time.Time` results are
compared here by their year/month/day/hour/minute/second components (the
external format `YYYYMMDD.HHMMSS` carries neither sub-second data nor a zone;
`createDate` interprets components in the process-local zone for every call, so
component equality is the observable contract). -/
structure DateTime where
  year : Nat
  month : Nat
  day : Nat
  hour : Nat
  minute : Nat
  second : Nat
deriving DecidableEq, Repr

/-- Go's zero `time.Time` value (January 1, year 1, 00:00:00), which a Go map
lookup yields for an absent key. -/
def zeroTime : DateTime := ⟨1, 1, 1, 0, 0, 0⟩

def isDigitChar (c : Char) : Bool := '0' ≤ c && c ≤ '9'

def charToDigit (c : Char) : Nat := c.toNat - '0'.toNat

/-- The decimal digit character for `n % 10`. -/
def digitChar (n : Nat) : Char :=
  match n % 10 with
  | 0 => '0' | 1 => '1' | 2 => '2' | 3 => '3' | 4 => '4'
  | 5 => '5' | 6 => '6' | 7 => '7' | 8 => '8' | _ => '9'

/-- Leap-year rule used by Go's `time` package (proleptic Gregorian). -/
def isLeapYear (y : Nat) : Bool := y % 4 == 0 && (y % 100 != 0 || y % 400 == 0)

/-- Days in a month, as Go's `time.Parse` uses to validate the day field. -/
def daysIn (month year : Nat) : Nat :=
  if month == 2 then (if isLeapYear year then 29 else 28)
  else if month == 4 || month == 6 || month == 9 || month == 11 then 30
  else 31

/-- Fixed-width scan of the layout `20060102.150405` (`YYYYMMDD.HHMMSS`):
exactly 8 digits, a literal period, exactly 6 digits; yields the numeric
components, or `none` when the text does not fit the layout. -/
def fields? (cs : List Char) : Option (Nat × Nat × Nat × Nat × Nat × Nat) :=
  match cs with
  | [y1, y2, y3, y4, mo1, mo2, d1, d2, sep, h1, h2, mi1, mi2, s1, s2] =>
    if ([y1, y2, y3, y4, mo1, mo2, d1, d2, h1, h2, mi1, mi2, s1, s2]).all isDigitChar
        && sep == '.' then
      some (1000 * charToDigit y1 + 100 * charToDigit y2 + 10 * charToDigit y3 + charToDigit y4,
            10 * charToDigit mo1 + charToDigit mo2,
            10 * charToDigit d1 + charToDigit d2,
            10 * charToDigit h1 + charToDigit h2,
            10 * charToDigit mi1 + charToDigit mi2,
            10 * charToDigit s1 + charToDigit s2)
    else none
  | _ => none

/-- createDate - return a time value when given a string in YYYYMMDD.HHMMSS
format.  Embeds `time.ParseInLocation("20060102.150405", dt, local)`: the
fixed-width scan of the layout plus Go's range validation (month 1..12 checked
during the scan, hour/minute/second ranges, and the day checked against
`daysIn(month, year)` after the scan). -/
def createDate (dt : String) : Except String DateTime :=
  match fields? dt.data with
  | none => .error "parsing time: does not match layout"
  | some (year, month, day, hour, minute, second) =>
    if month < 1 || month > 12 then .error "month out of range"
    else if hour > 23 then .error "hour out of range"
    else if minute > 59 then .error "minute out of range"
    else if second > 59 then .error "second out of range"
    else if day < 1 || day > daysIn month year then .error "day out of range"
    else .ok ⟨year, month, day, hour, minute, second⟩

/-- Zero-padded 2-digit decimal rendering of `n` (for `n ≤ 99`). -/
def pad2 (n : Nat) : List Char := [digitChar (n / 10), digitChar n]

/-- Zero-padded 4-digit decimal rendering of `n` (for `n ≤ 9999`). -/
def pad4 (n : Nat) : List Char :=
  [digitChar (n / 1000), digitChar (n / 100), digitChar (n / 10), digitChar n]

/-- The canonical `YYYYMMDD.HHMMSS` string with the given components; every
string matching the layout is of this form for its components. -/
def mkDateString (y mo d h mi s : Nat) : String :=
  ⟨pad4 y ++ pad2 mo ++ pad2 d ++ ['.'] ++ pad2 h ++ pad2 mi ++ pad2 s⟩

/-- Right-to-left body of the FormatWithCommas loop over the digit characters
(least-significant digit first): copy a digit, and after every third digit
insert a comma unless the digits are exhausted (the source loop returns before
inserting a comma when `i == 0`). -/
def commasRev : List Char → Nat → List Char
  | [], _ => []
  | [d], _ => [d]
  | d :: e :: ds, k =>
    if k + 1 == 3 then d :: ',' :: commasRev (e :: ds) 0
    else d :: commasRev (e :: ds) (k + 1)

/-- FormatWithCommas - add thousands commas to an integer.  Functional
rendering of the source's right-to-left array loop over
`strconv.FormatInt(n, 10)`: the sign byte is split off for negative n, and the
digit string gets a comma after every group of three digits counted from the
right. -/
def FormatWithCommas (n : Int) : String :=
  let s := toString n
  if n < 0 then ⟨'-' :: (commasRev (s.data.drop 1).reverse 0).reverse⟩
  else ⟨(commasRev s.data.reverse 0).reverse⟩

/-- Spec-side description of the grouping: the digit characters grouped in
threes from the right, groups separated by commas. -/
def groupRight (s : List Char) : List Char :=
  if _h : s.length ≤ 3 then s
  else groupRight (s.take (s.length - 3)) ++ ',' :: s.drop (s.length - 3)
termination_by s.length
decreasing_by simp [List.length_take]; omega

/-- Spec-side formatter: decimal digits of n grouped in threes from the right
with comma separators, a leading minus sign (and no comma after it) for
negative n. -/
def specFormatWithCommas (n : Int) : String :=
  let s := toString n
  if n < 0 then ⟨'-' :: groupRight (s.data.drop 1)⟩
  else ⟨groupRight s.data⟩

/- ------------------  filesystem model  ------------------ -/

/-- The fields of os.FileInfo the program reads after a successful os.Stat. -/
structure FileInfo where
  size : Int
deriving DecidableEq, Repr

/-- Result of a successful times.Stat call: access and modify times always,
change and birth times exactly when the filesystem reports HasChangeTime /
HasBirthTime for the file. -/
structure TimesInfo where
  access : DateTime
  modify : DateTime
  change : Option DateTime
  birth : Option DateTime
deriving DecidableEq, Repr

/-- Model of the filesystem environment the program runs against: `globFn` is
filepath.Glob (`none` = malformed-pattern error), `statFn` is os.Stat (`none` =
stat failure), `timesFn` is times.Stat, and `chtimesOk` tells whether
os.Chtimes succeeds on a path. -/
structure FileSystem where
  globFn : String → Option (List String)
  statFn : String → Option FileInfo
  timesFn : String → Option TimesInfo
  chtimesOk : String → Bool

/-- os.Chtimes: on success the file's access and modify times become the given
pair (everything else unchanged); on failure (`none`) nothing changes. -/
def FileSystem.chtimes (fs : FileSystem) (file : String) (atime mtime : DateTime) :
    Option FileSystem :=
  if fs.chtimesOk file then
    some { fs with
      timesFn := fun p =>
        if p = file then
          (fs.timesFn p).map fun t => { t with access := atime, modify := mtime }
        else fs.timesFn p }
  else none

def OpAccess : String := "a"
def OpModify : String := "m"
def OpBoth : String := "b"

/-- expandGlobs - expand file wildcards into a list of file names.  A malformed
pattern (Glob error) is logged and skipped; a pattern with matches contributes
all of them; a pattern with zero matches is kept as a literal filename exactly
when os.Stat succeeds on it. -/
def expandGlobs (fs : FileSystem) : List String → List String
  | [] => []
  | glob :: rest =>
    match fs.globFn glob with
    | none => expandGlobs fs rest
    | some globbed =>
      if globbed.length > 0 then globbed ++ expandGlobs fs rest
      else if (fs.statFn glob).isSome then glob :: expandGlobs fs rest
      else expandGlobs fs rest

/-- Go `map[string]time.Time` indexing: the zero time when the key is absent. -/
def mapGet (m : List (String × DateTime)) (k : String) : DateTime :=
  (m.lookup k).getD zeroTime

/-- getFileTimes - return a small map containing time metadata for a single
file; empty when times.Stat fails (the error is logged). -/
def getFileTimes (fs : FileSystem) (file : String) : List (String × DateTime) :=
  match fs.timesFn file with
  | none => []
  | some t =>
    let m := [("a", t.access), ("m", t.modify)]
    let m := match t.change with
      | some c => m ++ [("c", c)]
      | none => m
    match t.birth with
    | some b => m ++ [("b", b)]
    | none => m

/-- One line of showFileTimes output. -/
inductive OutLine where
  | name (file : String)
  | size (formatted : String)
  | btime (t : DateTime)
  | ctime (t : DateTime)
  | mtime (t : DateTime)
  | atime (t : DateTime)
  | blank
deriving DecidableEq, Repr

/-- Loop of showFileTimes over the resolved files.  Mirrors the source order:
the name line is printed first, then os.Stat is attempted — on failure the
error is logged and the file is skipped (not counted); on success the count is
incremented and size, optional birth/change times, modify time, access time and
a blank separator are printed. -/
def showFileTimesLoop (fs : FileSystem) : List String → List OutLine × Nat
  | [] => ([], 0)
  | file :: rest =>
    let (outRest, countRest) := showFileTimesLoop fs rest
    match fs.statFn file with
    | none => (OutLine.name file :: outRest, countRest)
    | some fi =>
      let t := getFileTimes fs file
      let bLines := match t.lookup "b" with
        | some b => [OutLine.btime b]
        | none => []
      let cLines := match t.lookup "c" with
        | some c => [OutLine.ctime c]
        | none => []
      (OutLine.name file :: OutLine.size (FormatWithCommas fi.size) ::
        (bLines ++ cLines ++
          [OutLine.mtime (mapGet t "m"), OutLine.atime (mapGet t "a"), OutLine.blank] ++
          outRest),
       countRest + 1)

/-- showFileTimes - output file name, size; birth, change, modify, and access
times for each resolved file, returning how many files were stat'ed
successfully. -/
def showFileTimes (fs : FileSystem) (args : List String) : List OutLine × Nat :=
  showFileTimesLoop fs (expandGlobs fs args)

/-- One attempted os.Chtimes call: target file, access time, modify time. -/
structure ChtimesCall where
  file : String
  atime : DateTime
  mtime : DateTime
deriving DecidableEq, Repr

/-- Loop of setFileTime over the resolved files: computes the (access, modify)
pair for the op from the file's current times, attempts os.Chtimes (a failure
is logged and the loop continues), and records every attempted call.  The Bool
is true when log.Fatalf fired (invalid op), terminating the process. -/
def setFileTimeLoop (fs : FileSystem) (newTime : DateTime) (op : String) :
    List String → FileSystem × List ChtimesCall × Bool
  | [] => (fs, [], false)
  | file :: rest =>
    let currentTimes := getFileTimes fs file
    let pair : Option (DateTime × DateTime) :=
      if OpModify = op then some (mapGet currentTimes "a", newTime)
      else if OpAccess = op then some (newTime, mapGet currentTimes "m")
      else if OpBoth = op then some (newTime, newTime)
      else none
    match pair with
    | none => (fs, [], true)
    | some (atime, mtime) =>
      let fs1 := (fs.chtimes file atime mtime).getD fs
      let (fs2, calls, fatal) := setFileTimeLoop fs1 newTime op rest
      (fs2, ⟨file, atime, mtime⟩ :: calls, fatal)

/-- setFileTime - update timestamps for a group of files.  The date string is
parsed once, before iterating over any resolved file; a parse failure is
log.Fatalf, terminating the process with the filesystem untouched and no
Chtimes call attempted. -/
def setFileTime (fs : FileSystem) (args : List String) (dt op : String) :
    FileSystem × List ChtimesCall × Bool :=
  match createDate dt with
  | .error _ => (fs, [], true)
  | .ok newTime => setFileTimeLoop fs newTime op (expandGlobs fs args)

/-- Display-mode tail of main: log.Fatalf (exit 1) when showFileTimes counted
zero files, otherwise main falls through and the process exits 0. -/
def mainDisplayExit (fs : FileSystem) (args : List String) : Nat :=
  if (showFileTimes fs args).2 = 0 then 1 else 0

/- ------------------  sample environment for concrete instantiations  ------------------ -/

/-- A concrete filesystem: `*.txt` matches two files, `err` is a malformed
pattern, `li*t` matches nothing but exists literally, `a.txt` has full time
metadata while `b.txt` has none readable. -/
def sampleFS : FileSystem where
  globFn := fun g =>
    if g = "*.txt" then some ["a.txt", "b.txt"]
    else if g = "err" then none
    else some []
  statFn := fun p =>
    if p = "a.txt" || p = "b.txt" || p = "li*t" then some ⟨1234567⟩ else none
  timesFn := fun p =>
    if p = "a.txt" then
      some ⟨⟨2020, 1, 2, 3, 4, 5⟩, ⟨2021, 6, 7, 8, 9, 10⟩, some ⟨2022, 1, 1, 0, 0, 0⟩, none⟩
    else none
  chtimesOk := fun _ => true

end Gostat

namespace Gostat

/- ------------------  claim theorems  ------------------ -/

/-- C6: for every pattern whose glob expansion yields zero matches,
expandGlobs falls back to the literal path, contributing exactly that path
when a filesystem entry exists there and nothing otherwise; the remaining
patterns are processed unchanged. -/
theorem expandGlobs_literal_fallback (fs : FileSystem) (pattern : String)
    (rest : List String) (hglob : fs.globFn pattern = some []) :
    expandGlobs fs (pattern :: rest) =
      (if (fs.statFn pattern).isSome then [pattern] else []) ++ expandGlobs fs rest := by
  cases hstat : fs.statFn pattern <;> simp [expandGlobs, hglob, hstat]

/-- Witness for C6: the pattern `li*t` globs to zero matches, names an existing
file, and resolves to exactly that one file. -/
theorem expandGlobs_literal_fallback_witness :
    sampleFS.globFn "li*t" = some [] ∧ expandGlobs sampleFS ["li*t"] = ["li*t"] := by
  refine ⟨rfl, ?_⟩
  have h := expandGlobs_literal_fallback sampleFS "li*t" [] rfl
  simpa using h

/-- C7: a FileTimeSet returned by getFileTimes is either empty (times.Stat
failed) or has both mandatory keys "a" and "m" bound to the file's access and
modify times, with "c" and "b" present exactly when the per-file capability
query reports change/birth time support; it is never partially populated for
the mandatory keys. -/
theorem getFileTimes_invariant (fs : FileSystem) (file : String) :
    (fs.timesFn file = none ∧ getFileTimes fs file = []) ∨
    (∃ t, fs.timesFn file = some t ∧
      (getFileTimes fs file).lookup "a" = some t.access ∧
      (getFileTimes fs file).lookup "m" = some t.modify ∧
      (((getFileTimes fs file).lookup "c").isSome ↔ t.change.isSome) ∧
      (((getFileTimes fs file).lookup "b").isSome ↔ t.birth.isSome)) := by
  cases h : fs.timesFn file with
  | none => exact Or.inl ⟨rfl, by simp [getFileTimes, h]⟩
  | some t =>
    refine Or.inr ⟨t, rfl, ?_⟩
    cases hc : t.change <;> cases hb : t.birth <;>
      simp [getFileTimes, h, hc, hb, List.lookup]

/-- Count of successfully stat'ed files accumulated by the showFileTimes
loop. -/
theorem showFileTimesLoop_count (fs : FileSystem) (files : List String) :
    (showFileTimesLoop fs files).2 =
      (files.filter fun f => (fs.statFn f).isSome).length := by
  induction files with
  | nil => rfl
  | cons file rest ih =>
    rcases hrest : showFileTimesLoop fs rest with ⟨outRest, countRest⟩
    cases hstat : fs.statFn file <;>
      simp_all [showFileTimesLoop, hstat, List.filter]

/-- C8: showFileTimes returns exactly the number of resolved targets whose
stat succeeded, and in display mode main exits 0 exactly when that count is
nonzero (a zero count is a fatal error). -/
theorem showFileTimes_count_exit (fs : FileSystem) (args : List String) :
    (showFileTimes fs args).2 =
      ((expandGlobs fs args).filter fun f => (fs.statFn f).isSome).length ∧
    (mainDisplayExit fs args = 0 ↔ (showFileTimes fs args).2 ≠ 0) := by
  constructor
  · exact showFileTimesLoop_count fs (expandGlobs fs args)
  · unfold mainDisplayExit
    by_cases h : (showFileTimes fs args).2 = 0 <;> simp [h]

/-- C4: in mutate mode the timestamp is parsed once, before iterating over any
resolved target: when parsing fails, setFileTime terminates fatally with the
filesystem unchanged and no Chtimes call attempted. -/
theorem setFileTime_parse_failure (fs : FileSystem) (args : List String)
    (dt op : String) (h : (createDate dt).isOk = false) :
    setFileTime fs args dt op = (fs, [], true) := by
  unfold setFileTime
  cases hc : createDate dt with
  | error e => rfl
  | ok v => rw [hc] at h; simp [Except.isOk, Except.toBool] at h

/-- Witness for C4: the malformed timestamp "20211329.143025" (month 13) fails
to parse and leaves the sample filesystem untouched, with no Chtimes call. -/
theorem setFileTime_parse_failure_witness :
    (createDate "20211329.143025").isOk = false ∧
    setFileTime sampleFS ["*.txt"] "20211329.143025" OpModify = (sampleFS, [], true) :=
  ⟨by decide, setFileTime_parse_failure sampleFS ["*.txt"] "20211329.143025" OpModify (by decide)⟩

/-- When times.Stat succeeded, indexing the returned map with "a" yields the
file's access time, whatever the optional keys hold. -/
theorem mapGet_getFileTimes_access (fs : FileSystem) (file : String) (tm : TimesInfo)
    (h : fs.timesFn file = some tm) :
    mapGet (getFileTimes fs file) "a" = tm.access := by
  cases hc : tm.change <;> cases hb : tm.birth <;>
    simp [getFileTimes, h, hc, hb, mapGet, List.lookup]

/-- When times.Stat succeeded, indexing the returned map with "m" yields the
file's modify time, whatever the optional keys hold. -/
theorem mapGet_getFileTimes_modify (fs : FileSystem) (file : String) (tm : TimesInfo)
    (h : fs.timesFn file = some tm) :
    mapGet (getFileTimes fs file) "m" = tm.modify := by
  cases hc : tm.change <;> cases hb : tm.birth <;>
    simp [getFileTimes, h, hc, hb, mapGet, List.lookup]

/-- C1: for a target whose current times were read successfully, setFileTime
hands os.Chtimes exactly the pair determined by the op — AccessOnly writes
(new, current modify), ModifyOnly writes (current access, new), Both writes
(new, new) — and after a successful write the file's access/modify times are
that pair, the field not named by the op keeping its current value. -/
theorem setFileTime_op_pairs (fs : FileSystem) (file : String) (nt : DateTime)
    (tm : TimesInfo) (hread : fs.timesFn file = some tm)
    (hok : fs.chtimesOk file = true) :
    (∃ fs1, setFileTimeLoop fs nt OpAccess [file] = (fs1, [⟨file, nt, tm.modify⟩], false) ∧
      fs1.timesFn file = some { tm with access := nt }) ∧
    (∃ fs2, setFileTimeLoop fs nt OpModify [file] = (fs2, [⟨file, tm.access, nt⟩], false) ∧
      fs2.timesFn file = some { tm with modify := nt }) ∧
    (∃ fs3, setFileTimeLoop fs nt OpBoth [file] = (fs3, [⟨file, nt, nt⟩], false) ∧
      fs3.timesFn file = some { tm with access := nt, modify := nt }) := by
  have ha := mapGet_getFileTimes_access fs file tm hread
  have hm := mapGet_getFileTimes_modify fs file tm hread
  refine ⟨⟨(fs.chtimes file nt tm.modify).getD fs, ?_, ?_⟩,
          ⟨(fs.chtimes file tm.access nt).getD fs, ?_, ?_⟩,
          ⟨(fs.chtimes file nt nt).getD fs, ?_, ?_⟩⟩ <;>
    simp [setFileTimeLoop, OpAccess, OpModify, OpBoth, ha, hm,
      FileSystem.chtimes, hok, hread]

/-- Witness for C1: on the sample filesystem, updating `a.txt` (whose times
read as access 2020-01-02 03:04:05 and modify 2021-06-07 08:09:10) with the
instant 2025-01-01 00:00:00 produces exactly the AccessOnly pair. -/
theorem setFileTime_op_pairs_witness :
    sampleFS.timesFn "a.txt" =
      some ⟨⟨2020, 1, 2, 3, 4, 5⟩, ⟨2021, 6, 7, 8, 9, 10⟩, some ⟨2022, 1, 1, 0, 0, 0⟩, none⟩ ∧
    sampleFS.chtimesOk "a.txt" = true ∧
    (∃ fs1, setFileTimeLoop sampleFS ⟨2025, 1, 1, 0, 0, 0⟩ OpAccess ["a.txt"] =
        (fs1, [⟨"a.txt", ⟨2025, 1, 1, 0, 0, 0⟩, ⟨2021, 6, 7, 8, 9, 10⟩⟩], false) ∧
      fs1.timesFn "a.txt" =
        some ⟨⟨2025, 1, 1, 0, 0, 0⟩, ⟨2021, 6, 7, 8, 9, 10⟩, some ⟨2022, 1, 1, 0, 0, 0⟩, none⟩) := by
  refine ⟨rfl, rfl, ?_⟩
  exact (setFileTime_op_pairs sampleFS "a.txt" ⟨2025, 1, 1, 0, 0, 0⟩
    ⟨⟨2020, 1, 2, 3, 4, 5⟩, ⟨2021, 6, 7, 8, 9, 10⟩, some ⟨2022, 1, 1, 0, 0, 0⟩, none⟩
    rfl rfl).1

/-- C10: when reading a target's current times fails (empty FileTimeSet), the
map lookup for the missing key yields Go's zero time, and that zero instant is
what setFileTime passes to os.Chtimes for the field the op was supposed to
preserve: ModifyOnly writes (zero, new) and AccessOnly writes (new, zero). -/
theorem setFileTime_zero_time_on_failed_read (fs : FileSystem) (file : String)
    (nt : DateTime) (hread : fs.timesFn file = none) :
    getFileTimes fs file = [] ∧
    (setFileTimeLoop fs nt OpModify [file]).2.1 = [⟨file, zeroTime, nt⟩] ∧
    (setFileTimeLoop fs nt OpAccess [file]).2.1 = [⟨file, nt, zeroTime⟩] := by
  refine ⟨by simp [getFileTimes, hread], ?_, ?_⟩ <;>
    cases hch : fs.chtimesOk file <;>
      simp [setFileTimeLoop, OpAccess, OpModify, OpBoth, getFileTimes, hread,
        mapGet, List.lookup, FileSystem.chtimes, hch]

/-- Witness for C10: `b.txt` on the sample filesystem has no readable times;
the update with 2025-01-01 00:00:00 passes the zero time 0001-01-01 00:00:00
for the field the op should have preserved. -/
theorem setFileTime_zero_time_on_failed_read_witness :
    sampleFS.timesFn "b.txt" = none ∧
    (setFileTimeLoop sampleFS ⟨2025, 1, 1, 0, 0, 0⟩ OpModify ["b.txt"]).2.1 =
      [⟨"b.txt", zeroTime, ⟨2025, 1, 1, 0, 0, 0⟩⟩] :=
  ⟨rfl, (setFileTime_zero_time_on_failed_read sampleFS "b.txt"
    ⟨2025, 1, 1, 0, 0, 0⟩ rfl).2.1⟩

/-- A filesystem where the single resolved target cannot be stat'ed: every
glob matches `ghost`, and every stat fails. -/
def ghostFS : FileSystem where
  globFn := fun _ => some ["ghost"]
  statFn := fun _ => none
  timesFn := fun _ => none
  chtimesOk := fun _ => false

/-- Counterexample to C5 as stated: the source prints the name line before
attempting the stat, so a target whose stat fails still produces per-file
output (its name line) — the output is not empty, though the file is not
counted. -/
theorem showFileTimes_name_precedes_stat :
    ghostFS.statFn "ghost" = none ∧
    showFileTimes ghostFS ["*"] = ([OutLine.name "ghost"], 0) ∧
    (showFileTimes ghostFS ["*"]).1 ≠ [] := by decide

/-- C5 amended: for every resolved target the Reporter first emits the name
line, then attempts the stat; on stat failure nothing further is emitted for
that target and it is not counted; on stat success it emits size and the
available time fields in the fixed order birth, change, modify, access
(omitting birth/change when unavailable), followed by a blank line, and counts
the file — where, when the times read fails for a stat-successful target,
birth and change are omitted and the modify and access lines show Go's zero
time. -/
theorem showFileTimes_per_target (fs : FileSystem) (file : String) (rest : List String) :
    (fs.statFn file = none →
      showFileTimesLoop fs (file :: rest) =
        (OutLine.name file :: (showFileTimesLoop fs rest).1,
         (showFileTimesLoop fs rest).2)) ∧
    (∀ fi tm, fs.statFn file = some fi → fs.timesFn file = some tm →
      showFileTimesLoop fs (file :: rest) =
        (OutLine.name file :: OutLine.size (FormatWithCommas fi.size) ::
          ((tm.birth.map OutLine.btime).toList ++ (tm.change.map OutLine.ctime).toList ++
            [OutLine.mtime tm.modify, OutLine.atime tm.access, OutLine.blank] ++
            (showFileTimesLoop fs rest).1),
         (showFileTimesLoop fs rest).2 + 1)) ∧
    (∀ fi, fs.statFn file = some fi → fs.timesFn file = none →
      showFileTimesLoop fs (file :: rest) =
        (OutLine.name file :: OutLine.size (FormatWithCommas fi.size) ::
          ([OutLine.mtime zeroTime, OutLine.atime zeroTime, OutLine.blank] ++
            (showFileTimesLoop fs rest).1),
         (showFileTimesLoop fs rest).2 + 1)) := by
  rcases hrest : showFileTimesLoop fs rest with ⟨outRest, countRest⟩
  refine ⟨?_, ?_, ?_⟩
  · intro h
    simp [showFileTimesLoop, h, hrest]
  · intro fi tm hstat htm
    cases hb : tm.birth <;> cases hc : tm.change <;>
      simp [showFileTimesLoop, hstat, hrest, getFileTimes, htm, mapGet,
        List.lookup, hb, hc]
  · intro fi hstat htm
    simp [showFileTimesLoop, hstat, hrest, getFileTimes, htm, mapGet, List.lookup]

/-- Witness for C5 amended: `a.txt` on the sample filesystem is stat'ed
successfully and reported as name, size, change time, modify time, access
time, blank (it has no birth time), counting 1; `b.txt` stats successfully but
its times read fails, so it is reported as name, size, zero-valued modify and
access times, blank, still counting 1. -/
theorem showFileTimes_per_target_witness :
    sampleFS.statFn "a.txt" = some ⟨1234567⟩ ∧
    sampleFS.timesFn "a.txt" =
      some ⟨⟨2020, 1, 2, 3, 4, 5⟩, ⟨2021, 6, 7, 8, 9, 10⟩, some ⟨2022, 1, 1, 0, 0, 0⟩, none⟩ ∧
    showFileTimesLoop sampleFS ["a.txt"] =
      ([OutLine.name "a.txt", OutLine.size "1,234,567",
        OutLine.ctime ⟨2022, 1, 1, 0, 0, 0⟩, OutLine.mtime ⟨2021, 6, 7, 8, 9, 10⟩,
        OutLine.atime ⟨2020, 1, 2, 3, 4, 5⟩, OutLine.blank], 1) ∧
    sampleFS.statFn "b.txt" = some ⟨1234567⟩ ∧
    sampleFS.timesFn "b.txt" = none ∧
    showFileTimesLoop sampleFS ["b.txt"] =
      ([OutLine.name "b.txt", OutLine.size "1,234,567",
        OutLine.mtime zeroTime, OutLine.atime zeroTime, OutLine.blank], 1) := by
  refine ⟨rfl, rfl, ?_, rfl, rfl, ?_⟩
  · have h := (showFileTimes_per_target sampleFS "a.txt" []).2.1 ⟨1234567⟩
      ⟨⟨2020, 1, 2, 3, 4, 5⟩, ⟨2021, 6, 7, 8, 9, 10⟩, some ⟨2022, 1, 1, 0, 0, 0⟩, none⟩ rfl rfl
    rw [h]
    rfl
  · have h := (showFileTimes_per_target sampleFS "b.txt" []).2.2 ⟨1234567⟩ rfl rfl
    rw [h]
    rfl

/-- Extracting a digit character back to its numeric value. -/
theorem charToDigit_digitChar (n : Nat) : charToDigit (digitChar n) = n % 10 := by
  unfold digitChar
  generalize hk : n % 10 = k
  have hlt : k < 10 := hk ▸ Nat.mod_lt n (by omega)
  interval_cases k <;> rfl

/-- Digit characters pass the digit test. -/
theorem isDigitChar_digitChar (n : Nat) : isDigitChar (digitChar n) = true := by
  unfold digitChar
  generalize hk : n % 10 = k
  have hlt : k < 10 := hk ▸ Nat.mod_lt n (by omega)
  interval_cases k <;> rfl

/-- No month has more than 31 days. -/
theorem daysIn_le_31 (mo y : Nat) : daysIn mo y ≤ 31 := by
  unfold daysIn
  split
  · split <;> omega
  · split <;> omega

/-- The fixed-width scan recovers exactly the components the canonical string
was built from. -/
theorem fields_mkDateString (y mo d h mi s : Nat) (hy : y ≤ 9999) (hmo : mo ≤ 99)
    (hd : d ≤ 99) (hh : h ≤ 99) (hmi : mi ≤ 99) (hs : s ≤ 99) :
    fields? (mkDateString y mo d h mi s).data = some (y, mo, d, h, mi, s) := by
  simp only [mkDateString, pad4, pad2, List.cons_append, List.nil_append]
  simp [fields?, isDigitChar_digitChar, charToDigit_digitChar]
  omega

/-- C2: for every input of the form YYYYMMDD.HHMMSS whose numeric components
form a valid calendar date and time, createDate succeeds and returns an
instant whose year, month, day, hour, minute, and second exactly equal the
input components. -/
theorem createDate_ok (y mo d h mi s : Nat) (hy : y ≤ 9999)
    (hmo1 : 1 ≤ mo) (hmo2 : mo ≤ 12) (hd1 : 1 ≤ d) (hd2 : d ≤ daysIn mo y)
    (hh : h ≤ 23) (hmi : mi ≤ 59) (hs : s ≤ 59) :
    createDate (mkDateString y mo d h mi s) = .ok ⟨y, mo, d, h, mi, s⟩ := by
  have hd99 : d ≤ 99 := le_trans hd2 (le_trans (daysIn_le_31 mo y) (by omega))
  have hf := fields_mkDateString y mo d h mi s hy (by omega) hd99 (by omega) (by omega) (by omega)
  unfold createDate
  rw [hf]
  simp only [decide_eq_true_eq, Bool.or_eq_true]
  rw [if_neg (by omega), if_neg (by omega), if_neg (by omega), if_neg (by omega),
    if_neg (by omega)]

/-- Witness for C2: `"20210329.143025"` (the canonical string for those
components) parses to 2021-03-29 14:30:25. -/
theorem createDate_ok_witness :
    mkDateString 2021 3 29 14 30 25 = "20210329.143025" ∧
    createDate (mkDateString 2021 3 29 14 30 25) = .ok ⟨2021, 3, 29, 14, 30, 25⟩ :=
  ⟨rfl, createDate_ok 2021 3 29 14 30 25 (by decide) (by decide) (by decide)
    (by decide) (by decide) (by decide) (by decide) (by decide)⟩

/-- Short digit strings get no comma. -/
theorem groupRight_short (s : List Char) (h : s.length ≤ 3) : groupRight s = s := by
  rw [groupRight]
  simp [h]

/-- Splitting three characters off the right of a nonempty digit string
inserts one comma before them. -/
theorem groupRight_append3 (L : List Char) (c b a : Char) (hL : L ≠ []) :
    groupRight (L ++ [c, b, a]) = groupRight L ++ ',' :: [c, b, a] := by
  rw [groupRight]
  have hlen : (L ++ [c, b, a]).length = L.length + 3 := by simp
  have hpos : 0 < L.length := List.length_pos.mpr hL
  rw [dif_neg (by omega)]
  congr 1
  · congr 1
    rw [hlen]
    simp [List.take_left]
  · rw [hlen]
    simp [List.drop_left]

/-- The right-to-left comma loop computes exactly the grouping in threes from
the right. -/
theorem commasRev_correct : ∀ ds : List Char, (commasRev ds 0).reverse = groupRight ds.reverse
  | [] => by simp [commasRev, groupRight_short]
  | [a] => by simp [commasRev, groupRight_short]
  | [a, b] => by
    simp [commasRev]
    rw [groupRight_short _ (by simp)]
  | [a, b, c] => by
    simp [commasRev]
    rw [groupRight_short _ (by simp)]
  | a :: b :: c :: d :: ds => by
    have ih := commasRev_correct (d :: ds)
    have h1 : commasRev (a :: b :: c :: d :: ds) 0
        = a :: b :: c :: ',' :: commasRev (d :: ds) 0 := by
      simp [commasRev]
    have h2 : (a :: b :: c :: d :: ds).reverse = (d :: ds).reverse ++ [c, b, a] := by
      simp
    rw [h1, h2, groupRight_append3 _ _ _ _ (by simp), ← ih]
    simp

/-- C9: FormatWithCommas returns the decimal digits of n grouped in threes
from the right with comma separators, with a leading minus sign and no comma
after the sign for negative n; in particular the listed sample values. -/
theorem FormatWithCommas_spec :
    (∀ n : Int, FormatWithCommas n = specFormatWithCommas n) ∧
    FormatWithCommas 0 = "0" ∧ FormatWithCommas 999 = "999" ∧
    FormatWithCommas 1000 = "1,000" ∧ FormatWithCommas 1234567890 = "1,234,567,890" ∧
    FormatWithCommas (-1234567) = "-1,234,567" := by
  refine ⟨?_, by decide, by decide, by decide, by decide, by decide⟩
  intro n
  simp only [FormatWithCommas, specFormatWithCommas]
  by_cases h : n < 0
  · rw [if_pos h, if_pos h]
    have hc := commasRev_correct ((toString n).data.drop 1).reverse
    rw [List.reverse_reverse] at hc
    rw [hc]
  · rw [if_neg h, if_neg h]
    have hc := commasRev_correct (toString n).data.reverse
    rw [List.reverse_reverse] at hc
    rw [hc]

end Gostat
